import Mathlib

/-!
Verification of the transactions repository's synchronization/caching core.

The development shallowly embeds the Python sources:
* `transactions_core/models.py` (Account / Transaction parsing),
* `transactions_core/security.py` (Encryptor),
* `transactions_core/providers/simplefin.py` (SimpleFinProvider),
* `transactions_web/service.py` (sync_data / get_dashboard_data).

Python values coming from JSON are modelled with `PyVal` (string or int);
Python exceptions are modelled with `Except String`; money values are exact
rationals (`Rat`), dates are integer epoch seconds (`Int`).  Network and
database effects are passed in as explicit oracles.
-/

set_option maxHeartbeats 1000000

deriving instance DecidableEq for Except

/-! ## Python string and number primitives -/

/-- A loosely typed scalar as produced by `resp.json()`: a JSON string or an
integer.  (Floats are outside the model.) -/
inductive PyVal where
  | str (s : String)
  | int (n : Int)
  deriving DecidableEq, Repr

/-- The Python expression `balance_raw.replace(",", "")`: removes every comma. -/
def stripCommas (s : String) : String :=
  String.mk (s.toList.filter (fun c => c ≠ ','))

/-- Numeric value of a list of decimal digit characters, most significant first. -/
def digitsVal (cs : List Char) : Nat :=
  cs.foldl (fun n c => 10 * n + (c.toNat - 48)) 0

/-- Leading optional sign of a Python numeric literal: returns the sign
(`+1` or `-1`) and the remaining characters. -/
def splitSign : List Char → Int × List Char
  | '+' :: rest => (1, rest)
  | '-' :: rest => (-1, rest)
  | cs => (1, cs)

/-- The Python builtin `int(s)` on a string, as a partial function: an optional
sign followed by a nonempty digit run.  `none` models a raised `ValueError`.
(Whitespace and underscore tolerance of CPython is outside the model.) -/
def pyIntOfString (s : String) : Option Int :=
  let (sign, cs) := splitSign s.toList
  if cs ≠ [] ∧ cs.all Char.isDigit then some (sign * digitsVal cs) else none

/-- Value of a decimal literal with integer part `ip`, fractional part `fp` and
exponent `e`, i.e. `ip.fp * 10^e` with the given sign. -/
def decValue (sign : Int) (ip fp : List Char) (e : Int) : Rat :=
  let m : Int := sign * (digitsVal (ip ++ fp) : Int)
  let e' : Int := e - (fp.length : Int)
  if 0 ≤ e' then mkRat (m * (10 : Int) ^ e'.toNat) 1
  else mkRat m ((10 : Nat) ^ (-e').toNat)

/-- Exponent part of a Python `Decimal` literal: either empty, or `e`/`E`
followed by an optionally signed nonempty digit run. -/
def parseExponent : List Char → Option Int
  | [] => some 0
  | 'e' :: rest =>
    let (sign, ds) := splitSign rest
    if ds ≠ [] ∧ ds.all Char.isDigit then some (sign * digitsVal ds) else none
  | 'E' :: rest =>
    let (sign, ds) := splitSign rest
    if ds ≠ [] ∧ ds.all Char.isDigit then some (sign * digitsVal ds) else none
  | _ => none

/-- The Python constructor `Decimal(s)` on a string, as a partial function
returning the exact rational value.  The grammar modelled is
`[sign] digits [. digits] [exponent]` or `[sign] . digits [exponent]`
(at least one digit in the coefficient); `none` models a raised
`InvalidOperation`.  (`NaN`, infinities and whitespace/underscore tolerance
are outside the model.) -/
def pyDecimal (s : String) : Option Rat :=
  let (sign, cs) := splitSign s.toList
  let (ip, r1) := cs.span Char.isDigit
  match r1 with
  | '.' :: r2 =>
    let (fp, r3) := r2.span Char.isDigit
    if ip ++ fp = [] then none
    else (parseExponent r3).map (decValue sign ip fp)
  | r2 =>
    if ip = [] then none
    else (parseExponent r2).map (decValue sign ip [] ·)

/-- The Python expression `Decimal(x)` applied to the result of the
`isinstance(x, str)` comma-stripping branch in `models.py`: strings are
comma-stripped then parsed, ints are exact. -/
def parsePyMoney : PyVal → Option Rat
  | .str s => pyDecimal (stripCommas s)
  | .int n => some (mkRat n 1)

/-- The Python expression `int(x)` on a scalar: identity on ints, string
parsing on strings. -/
def pyIntOfVal : PyVal → Option Int
  | .str s => pyIntOfString s
  | .int n => some n

/-- The Python expression `str(x)` applied to an optional string, where the
missing case is `None` (Python renders it as the string `"None"`). -/
def pyStr (o : Option String) : String :=
  o.getD "None"

/-- A Python loop or comprehension that builds a list from fallible element
computations: the first element that raises aborts the whole loop with that
exception. -/
def mapExcept (f : α → Except ε β) : List α → Except ε (List β)
  | [] => .ok []
  | x :: xs =>
    match f x with
    | .error e => .error e
    | .ok y =>
      match mapExcept f xs with
      | .error e => .error e
      | .ok ys => .ok (y :: ys)

/-! ## Domain model (`transactions_core/models.py`) -/

/-- A raw remote transaction record, the `t` dictionary consumed by
`Transaction.from_dict`.  A `none` field models an absent key (or, for
`posted`, a value that is not an int/float/str). -/
structure TxnDict where
  id : Option String
  posted : Option PyVal
  amount : Option PyVal
  payee : Option String
  description : Option String
  deriving DecidableEq, Repr

/-- A raw remote account record, the `acc` dictionary consumed by
`Account.from_dict`.  `orgName` is `data.get("org", {}).get("name")`. -/
structure AccountDict where
  id : Option String
  orgName : Option String
  name : Option String
  currency : Option String
  balance : Option PyVal
  transactions : List TxnDict
  deriving DecidableEq, Repr

/-- The parsed `Account` dataclass of `models.py`. -/
structure Account where
  id : String
  org_name : String
  name : String
  currency : String
  balance : Rat
  deriving DecidableEq, Repr

/-- The classmethod `Account.from_dict` of `models.py`: defaults a missing
balance to the string `"0"`, strips commas from string balances, then converts
with `Decimal`.  A failing conversion is a raised `InvalidOperation`, modelled
as `Except.error`. -/
def Account.from_dict (data : AccountDict) : Except String Account :=
  let balance_raw := data.balance.getD (.str "0")
  match parsePyMoney balance_raw with
  | none => .error "InvalidOperation"
  | some b => .ok
      { id := pyStr data.id
        org_name := data.orgName.getD "Unknown Bank"
        name := data.name.getD "Unknown Account"
        currency := data.currency.getD "USD"
        balance := b }

/-- The parsed `Transaction` dataclass of `models.py`; `date` is epoch
seconds. -/
structure Transaction where
  id : String
  date : Int
  amount : Rat
  payee : String
  account_id : String
  account_name : String
  org_name : String
  description : Option String
  deriving DecidableEq, Repr

/-- The Python truthiness chain
`str(data.get("payee") or data.get("description") or "Unknown")`:
an absent key and an empty string are both falsy. -/
def payeeChain (payee description : Option String) : String :=
  match payee with
  | some s =>
    if s ≠ "" then s
    else match description with
      | some d => if d ≠ "" then d else "Unknown"
      | none => "Unknown"
  | none =>
    match description with
    | some d => if d ≠ "" then d else "Unknown"
    | none => "Unknown"

/-- The classmethod `Transaction.from_dict` of `models.py`.  `now` is the
result of `datetime.now()` as epoch seconds.  A `posted` value that is an
int/str goes through `int(posted)` (a failing string conversion raises
`ValueError`); any other `posted` falls back to the current time.  The amount
is parsed like the account balance. -/
def Transaction.from_dict (data : TxnDict) (account : AccountDict) (now : Int) :
    Except String Transaction :=
  let dateRes : Except String Int :=
    match data.posted with
    | some v =>
      match pyIntOfVal v with
      | none => .error "ValueError"
      | some n => .ok n
    | none => .ok now
  match dateRes with
  | .error e => .error e
  | .ok date_obj =>
    let amount_raw := data.amount.getD (.str "0")
    match parsePyMoney amount_raw with
    | none => .error "InvalidOperation"
    | some amt => .ok
        { id := pyStr data.id
          date := date_obj
          amount := amt
          payee := payeeChain data.payee data.description
          account_id := pyStr account.id
          account_name := account.name.getD "Unknown Account"
          org_name := account.orgName.getD "Unknown Bank"
          description := data.description }

/-! ## Provider fetch processing (`providers/simplefin.py`) -/

/-- The decoded JSON body returned by `_fetch_data`, i.e. the provider's
`{accounts: [...], errors: [...]}` payload.  Absent keys default to empty
lists via `data.get(..., [])`. -/
structure FinData where
  accounts : List AccountDict
  errors : List String
  deriving DecidableEq, Repr

/-- The outcome of `_fetch_data`: either the decoded JSON, or `None` together
with a list of error strings (network error, non-JSON body, unexpected
error).  The pair mirrors the Python return type
`Tuple[Optional[dict], List[str]]`. -/
def FetchedData := Option FinData × List String

/-- The method `SimpleFinProvider.get_accounts`, applied to the result of
`_fetch_data` (the network call is the oracle input).  A falsy body returns
the transport errors alone; otherwise API-level errors are merged and every
account dictionary is parsed.  A parse failure raises out of the method,
modelled as `Except.error`. -/
def get_accounts (fetched : FetchedData) :
    Except String (List Account × List String) :=
  let (dataOpt, errors) := fetched
  match dataOpt with
  | none => .ok ([], errors)
  | some data =>
    let errors := errors ++ data.errors
    match mapExcept Account.from_dict data.accounts with
    | .error e => .error e
    | .ok accounts => .ok (accounts, errors)

/-- The call `transactions.sort(key=lambda x: x.date, reverse=True)`:
a stable sort placing `a` before `b` whenever `a.date > b.date`, and keeping
input order on date ties.  A stable sort's output is unique, so Python's
Timsort is realized here by the structurally recursive insertion sort. -/
def pySortByDateDesc (l : List Transaction) : List Transaction :=
  l.insertionSort (fun a b => b.date ≤ a.date)

/-- The nested loop of `get_transactions` that parses every transaction of
every account of the payload, in input order.  The first parse failure
raises out of the whole method. -/
def parseAllTxns (data : FinData) (now : Int) : Except String (List Transaction) :=
  match mapExcept
      (fun acc => mapExcept (fun t => Transaction.from_dict t acc now) acc.transactions)
      data.accounts with
  | .error e => .error e
  | .ok nested => .ok nested.flatten

/-- The method `SimpleFinProvider.get_transactions`, applied to the result of
`_fetch_data`.  All accounts' transaction lists are flattened into one and
sorted descending by date. -/
def get_transactions (fetched : FetchedData) (now : Int) :
    Except String (List Transaction × List String) :=
  let (dataOpt, errors) := fetched
  match dataOpt with
  | none => .ok ([], errors)
  | some data =>
    let errors := errors ++ data.errors
    match parseAllTxns data now with
    | .error e => .error e
    | .ok transactions => .ok (pySortByDateDesc transactions, errors)

/-! ## Token claiming (`SimpleFinProvider.claim_token`) -/

/-- Python `str.strip()` whitespace: the six ASCII whitespace characters. -/
def isPyWS (c : Char) : Bool :=
  c = ' ' ∨ c = '\t' ∨ c = '\n' ∨ c = '\x0B' ∨ c = '\x0C' ∨ c = '\r'

/-- Python `s.strip()`: removes leading and trailing whitespace. -/
def pyStrip (s : String) : String :=
  String.mk (((s.toList.dropWhile isPyWS).reverse.dropWhile isPyWS).reverse)

/-- Whether a character list starts with the five characters `sfin:`. -/
def startsWithSfin : List Char → Bool
  | 's' :: 'f' :: 'i' :: 'n' :: ':' :: _ => true
  | _ => false

/-- Python `setup_token.replace("sfin:", "")`: removes every (non-overlapping,
leftmost-first) occurrence of `sfin:`. -/
def removeSfin : List Char → List Char
  | 's' :: 'f' :: 'i' :: 'n' :: ':' :: rest => removeSfin rest
  | c :: rest => c :: removeSfin rest
  | [] => []

/-- Whether `sfin:` occurs anywhere in a character list. -/
def containsSfin : List Char → Bool
  | [] => false
  | c :: rest => startsWithSfin (c :: rest) || containsSfin rest

/-- The value of a standard base64 alphabet character. -/
def b64Val (c : Char) : Option Nat :=
  if 'A' ≤ c ∧ c ≤ 'Z' then some (c.toNat - 65)
  else if 'a' ≤ c ∧ c ≤ 'z' then some (c.toNat - 71)
  else if '0' ≤ c ∧ c ≤ '9' then some (c.toNat + 4)
  else if c = '+' then some 62
  else if c = '/' then some 63
  else none

/-- Worker for `base64.b64decode` with `validate=False` (CPython's non-strict
`binascii.a2b_base64`): characters outside the alphabet are discarded, a
padding character that validly completes a quad ends the decode (the rest of
the input is ignored), and input ending inside a quad is an error.  `qpos` is
the position inside the current quad, `left` the pending bits, `pads` the
padding characters seen at `qpos = 2`, `acc` the output bytes in reverse. -/
def pyB64decodeAux : List Char → Nat → Nat → Nat → List Nat → Option (List Nat)
  | [], qpos, _, _, acc => if qpos = 0 then some acc.reverse else none
  | c :: rest, qpos, left, pads, acc =>
    if c = '=' then
      if qpos = 3 then some acc.reverse
      else if qpos = 2 then
        if pads = 1 then some acc.reverse
        else pyB64decodeAux rest qpos left (pads + 1) acc
      else pyB64decodeAux rest qpos left pads acc
    else
      match b64Val c with
      | none => pyB64decodeAux rest qpos left pads acc
      | some v =>
        match qpos with
        | 0 => pyB64decodeAux rest 1 v 0 acc
        | 1 => pyB64decodeAux rest 2 ((left * 64 + v) % 16) 0 ((left * 64 + v) / 16 :: acc)
        | 2 => pyB64decodeAux rest 3 ((left * 64 + v) % 4) 0 ((left * 64 + v) / 4 :: acc)
        | _ => pyB64decodeAux rest 0 0 0 ((left * 64 + v) :: acc)

/-- The Python call `base64.b64decode(s)` (default non-strict mode), returning
the decoded bytes; `none` models a raised `binascii.Error`. -/
def pyB64decode (s : String) : Option (List Nat) :=
  pyB64decodeAux s.toList 0 0 0 []

/-- Whether a byte is a UTF-8 continuation byte (`0x80..0xBF`). -/
def isCont (b : Nat) : Bool :=
  128 ≤ b ∧ b < 192

/-- Strict UTF-8 decoding of a byte list into characters: rejects overlong
encodings, surrogates and out-of-range sequences, as Python's
`bytes.decode("utf-8")` does.  `none` models a raised `UnicodeDecodeError`. -/
def utf8Aux : List Nat → Option (List Char)
  | [] => some []
  | b :: rest =>
    if b < 128 then (utf8Aux rest).map (fun cs => Char.ofNat b :: cs)
    else if b < 194 then none
    else if b < 224 then
      match rest with
      | b2 :: r2 =>
        if isCont b2 then
          (utf8Aux r2).map (fun cs => Char.ofNat ((b - 192) * 64 + (b2 - 128)) :: cs)
        else none
      | [] => none
    else if b < 240 then
      match rest with
      | b2 :: b3 :: r3 =>
        if isCont b2 ∧ isCont b3 ∧ (b = 224 → 160 ≤ b2) ∧ (b = 237 → b2 < 160) then
          (utf8Aux r3).map
            (fun cs => Char.ofNat ((b - 224) * 4096 + (b2 - 128) * 64 + (b3 - 128)) :: cs)
        else none
      | _ => none
    else if b < 245 then
      match rest with
      | b2 :: b3 :: b4 :: r4 =>
        if isCont b2 ∧ isCont b3 ∧ isCont b4 ∧ (b = 240 → 144 ≤ b2) ∧ (b = 244 → b2 < 144) then
          (utf8Aux r4).map
            (fun cs =>
              Char.ofNat
                ((b - 240) * 262144 + (b2 - 128) * 4096 + (b3 - 128) * 64 + (b4 - 128)) :: cs)
        else none
      | _ => none
    else none

/-- The Python call `bytes.decode("utf-8")` on a byte list. -/
def utf8Decode (bs : List Nat) : Option String :=
  (utf8Aux bs).map String.mk

/-- The failure modes of `claim_token`: `invalidToken` is the raised
`ValueError("Invalid token format")`, `claimFailed` the raised
`ValueError(f"Failed to claim token: {e}")`. -/
inductive TokenError where
  | invalidToken
  | claimFailed (msg : String)
  deriving DecidableEq, Repr

/-- An HTTP response as seen through httpx: a status code and a text body. -/
structure HttpResponse where
  status : Nat
  text : String
  deriving DecidableEq, Repr

/-- The `client.post(claim_url)` / `resp.raise_for_status()` / `resp.text.strip()`
tail of `claim_token`, with the POST call passed in as an oracle whose
`Except.error` models a raised `httpx.HTTPError`.  `raise_for_status` raises
for status codes `>= 400`; both failure shapes are caught and re-raised as
the claim-failed error. -/
def postClassify (post : String → Except String HttpResponse) (url : String) :
    Except TokenError String :=
  match post url with
  | .error e => .error (.claimFailed ("Failed to claim token: " ++ e))
  | .ok resp =>
    if 400 ≤ resp.status then
      .error (.claimFailed ("Failed to claim token: HTTP status " ++ toString resp.status))
    else .ok (pyStrip resp.text)

/-- The decode front half of `claim_token`: the `replace("sfin:", "")` rewrite
when the token starts with `sfin:`, then
`base64.b64decode(setup_token).decode("utf-8").strip()`; `none` models the
caught exception that becomes `ValueError("Invalid token format")`. -/
def tokenToUrl (setup_token : String) : Option String :=
  let t :=
    if startsWithSfin setup_token.toList then String.mk (removeSfin setup_token.toList)
    else setup_token
  ((pyB64decode t).bind utf8Decode).map pyStrip

/-- The staticmethod `SimpleFinProvider.claim_token` of `simplefin.py`. -/
def claim_token (post : String → Except String HttpResponse) (setup_token : String) :
    Except TokenError String :=
  match tokenToUrl setup_token with
  | none => .error .invalidToken
  | some claim_url => postClassify post claim_url

/-- Modelled from the spec: claim_token as §4.2 words it, "strips a known
prefix if present" — i.e. removes one leading `sfin:` and nothing else —
"base64-decodes the remainder to obtain a claim URL, performs a single POST to
that URL, and returns the trimmed response body", failing with the
invalid-token error exactly when decoding fails and the claim-failed error
exactly when the HTTP exchange errors or returns a non-success status.  Kept
for refinement comparison against `claim_token`. -/
def claimTokenSpec (post : String → Except String HttpResponse) (setup_token : String) :
    Except TokenError String :=
  let t :=
    if startsWithSfin setup_token.toList then String.mk (setup_token.toList.drop 5)
    else setup_token
  match ((pyB64decode t).bind utf8Decode).map pyStrip with
  | none => .error .invalidToken
  | some claim_url => postClassify post claim_url

/-! ## Encryption utility (`transactions_core/security.py`) -/

/-- The external `cryptography.fernet.Fernet` object for one fixed key,
taken as a parameter of the embedding: authenticated symmetric encryption
where decrypting a token produced under the same key gives back the
plaintext, a Fernet token is never the empty string (it always carries a
version byte, timestamp, IV and HMAC), and `dec t = none` models the
`InvalidToken` exception raised when `t` fails authentication or format
checks under the key (for example a token produced under a different key). -/
structure FernetScheme where
  enc : String → String
  dec : String → Option String
  dec_enc : ∀ s, dec (enc s) = some s
  enc_ne_empty : ∀ s, enc s ≠ ""

/-- The method `Encryptor.encrypt` of `security.py`: empty input short-circuits
to the empty string, everything else is Fernet-encrypted. -/
def Encryptor.encrypt (f : FernetScheme) (data : String) : String :=
  if data = "" then "" else f.enc data

/-- The method `Encryptor.decrypt` of `security.py`: empty input
short-circuits to the empty string; otherwise Fernet decryption is attempted
and any exception is swallowed, returning the original token (migration
support). -/
def Encryptor.decrypt (f : FernetScheme) (token : String) : String :=
  if token = "" then "" else (f.dec token).getD token

/-- A concrete miniature encryption scheme satisfying the Fernet contract,
used to instantiate witnesses: it marks the text with a leading `K`. -/
def toyFernet : FernetScheme where
  enc s := String.mk ('K' :: s.toList)
  dec t :=
    match t.toList with
    | 'K' :: rest => some (String.mk rest)
    | _ => none
  dec_enc s := by cases s; rfl
  enc_ne_empty s h := by
    have := congrArg String.data h
    simp at this

/-! ## Cache/sync engine (`transactions_web/service.py` and `db.py`) -/

/-- The `Connection` table row of `db.py`. -/
structure Connection where
  id : Nat
  user_id : Nat
  access_url : String
  name : String
  last_synced_at : Option Int
  deriving DecidableEq, Repr

/-- The `CachedAccount` table row of `db.py` (its own primary key is omitted;
rows are compared by contents). -/
structure CachedAccount where
  connection_id : Nat
  external_id : String
  name : String
  org_name : String
  currency : String
  balance : Rat
  deriving DecidableEq, Repr

/-- The `CachedTransaction` table row of `db.py`. -/
structure CachedTransaction where
  connection_id : Nat
  external_id : String
  date : Int
  amount : Rat
  payee : String
  description : Option String
  account_name : String
  org_name : String
  deriving DecidableEq, Repr

/-- The persisted store: the tables touched by the sync engine. -/
structure DB where
  connections : List Connection
  cachedTransactions : List CachedTransaction
  cachedAccounts : List CachedAccount
  deriving DecidableEq, Repr

/-- The per-connection outcome of the fetch phase of `sync_data`, i.e. what
`asyncio.gather(t_task, a_task, return_exceptions=True)` delivers for one
connection, plus a database oracle.  An `Except.error` in `txnsRes` or
`acctsRes` is an exception instance captured by `gather` (carrying `str(e)`);
an `Except.ok` is the `(records, errors)` pair the provider returned.
`dbFail = some e` says some statement of that connection's wipe-and-replace
database transaction raises with message `e`; SQLAlchemy then rolls the
transaction back, so no staged change reaches the store. -/
structure ConnFetch where
  txnsRes : Except String (List Transaction × List String)
  acctsRes : Except String (List Account × List String)
  dbFail : Option String

/-- The `CachedTransaction(...)` constructor call in the insert loop of
`sync_data`. -/
def toCachedTransaction (cid : Nat) (t : Transaction) : CachedTransaction :=
  { connection_id := cid
    external_id := t.id
    date := t.date
    amount := t.amount
    payee := t.payee
    description := t.description
    account_name := t.account_name
    org_name := t.org_name }

/-- The `CachedAccount(...)` constructor call in the insert loop of
`sync_data`. -/
def toCachedAccount (cid : Nat) (a : Account) : CachedAccount :=
  { connection_id := cid
    external_id := a.id
    name := a.name
    org_name := a.org_name
    currency := a.currency
    balance := a.balance }

/-- The body of the per-connection loop of `sync_data` (lines 102-181 of
`service.py`): unpack the gathered results, converting an exception into one
connection-tagged error string and an empty record list; then run the
wipe-and-replace block as one transaction — update `last_synced_at`, delete
the connection's cached rows, insert the fresh rows, commit.  If the
transaction raises (`f.dbFail`), `session.rollback()` leaves the store as it
was and a connection-tagged database error is appended instead. -/
def processConnection (now : Int) (f : ConnFetch) (db : DB) (errs : List String)
    (c : Connection) : DB × List String :=
  let (txns, errs) :=
    match f.txnsRes with
    | .error e => ([], errs ++ ["Conn " ++ toString c.id ++ " Txn Error: " ++ e])
    | .ok (ts, t_errs) => (ts, errs ++ t_errs)
  let (accounts, errs) :=
    match f.acctsRes with
    | .error e => ([], errs ++ ["Conn " ++ toString c.id ++ " Acct Error: " ++ e])
    | .ok (accs, a_errs) => (accs, errs ++ a_errs)
  match f.dbFail with
  | some e => (db, errs ++ ["DB Error Conn " ++ toString c.id ++ ": " ++ e])
  | none =>
    ({ connections :=
        db.connections.map
          (fun c2 => if c2.id = c.id then { c2 with last_synced_at := some now } else c2)
       cachedTransactions :=
        db.cachedTransactions.filter (fun t => t.connection_id ≠ c.id)
          ++ txns.map (toCachedTransaction c.id)
       cachedAccounts :=
        db.cachedAccounts.filter (fun a => a.connection_id ≠ c.id)
          ++ accounts.map (toCachedAccount c.id) },
     errs)

/-- One step of the reconcile loop, with the fetch outcomes for connection
`c` looked up from the oracle by connection id. -/
def syncStep (now : Int) (fetches : Nat → ConnFetch) (acc : DB × List String)
    (c : Connection) : DB × List String :=
  processConnection now (fetches c.id) acc.1 acc.2 c

/-- Lines 80-181 of `service.py`: enumerate the user's connections and run the
reconcile loop over them in order, accumulating the store state and the
internal `all_errors` list. -/
def syncCore (db : DB) (user_id : Nat) (now : Int) (fetches : Nat → ConnFetch) :
    DB × List String :=
  (db.connections.filter (fun c => c.user_id = user_id)).foldl
    (syncStep now fetches) (db, [])

/-- The ordering `order_by(CachedTransaction.date.desc())` of the dashboard
read, as a stable descending sort of the selected rows. -/
def sortCachedByDateDesc (l : List CachedTransaction) : List CachedTransaction :=
  l.insertionSort (fun a b => b.date ≤ a.date)

/-- The read-only `get_dashboard_data` of `service.py`: all cached
transactions joined to the user's connections, ordered by date descending,
with an error list that is always empty (the staleness check is a no-op). -/
def get_dashboard_data (db : DB) (user_id : Nat) :
    List CachedTransaction × List String :=
  let conns := db.connections.filter (fun c => c.user_id = user_id)
  let txns :=
    db.cachedTransactions.filter
      (fun t => (conns.map (fun c => c.id)).contains t.connection_id)
  (sortCachedByDateDesc txns, [])

/-- The whole `sync_data` of `service.py`: run the fetch-and-reconcile loop,
then return the result of re-reading the cache.  Note the internal
`all_errors` accumulator of `syncCore` is dropped here: the function returns
`get_dashboard_data`'s pair, whose error component is always `[]`. -/
def sync_data (db : DB) (user_id : Nat) (now : Int) (fetches : Nat → ConnFetch) :
    DB × (List CachedTransaction × List String) :=
  let db' := (syncCore db user_id now fetches).1
  (db', get_dashboard_data db' user_id)

/-! ## Concrete fixtures used in counterexamples and witnesses -/

/-- A remote account record whose balance string is malformed even after
comma stripping. -/
def accBadBalance : AccountDict :=
  { id := some "a1", orgName := some "First Bank", name := some "Checking",
    currency := some "USD", balance := some (.str "abc"), transactions := [] }

/-- A remote account record with no balance key at all. -/
def accNoBalance : AccountDict :=
  { id := some "a2", orgName := none, name := some "Savings",
    currency := none, balance := none, transactions := [] }

/-- A remote transaction record whose `posted` value is a non-numeric
string. -/
def txnBadPosted : TxnDict :=
  { id := some "t9", posted := some (.str "x"), amount := some (.str "5"),
    payee := some "Store", description := none }

/-- A remote transaction record with no `posted` key. -/
def txnNoPosted : TxnDict :=
  { id := some "t10", posted := none, amount := some (.str "7.25"),
    payee := some "Cafe", description := none }

/-- A remote transaction dated 2024-01-01 (epoch 1704067200). -/
def txnJanD : TxnDict :=
  { id := some "tj", posted := some (.int 1704067200), amount := some (.str "1.00"),
    payee := some "January", description := none }

/-- A remote transaction dated 2024-03-01 (epoch 1709251200). -/
def txnMarD : TxnDict :=
  { id := some "tm", posted := some (.int 1709251200), amount := some (.str "2.00"),
    payee := some "March", description := none }

/-- A remote transaction dated 2024-02-01 (epoch 1706745600). -/
def txnFebD : TxnDict :=
  { id := some "tf", posted := some (.int 1706745600), amount := some (.str "3.00"),
    payee := some "February", description := none }

/-- A remote account carrying the three dated transactions in the input order
January, March, February. -/
def exAccD : AccountDict :=
  { id := some "a1", orgName := some "First Bank", name := some "Checking",
    currency := some "USD", balance := some (.str "10.00"),
    transactions := [txnJanD, txnMarD, txnFebD] }

/-- The provider payload containing `exAccD` and no API-level errors. -/
def exPayload : FinData :=
  { accounts := [exAccD], errors := [] }

/-- The parsed form of `txnJanD`. -/
def txnJan : Transaction :=
  { id := "tj", date := 1704067200, amount := mkRat 1 1, payee := "January",
    account_id := "a1", account_name := "Checking", org_name := "First Bank",
    description := none }

/-- The parsed form of `txnMarD`. -/
def txnMar : Transaction :=
  { id := "tm", date := 1709251200, amount := mkRat 2 1, payee := "March",
    account_id := "a1", account_name := "Checking", org_name := "First Bank",
    description := none }

/-- The parsed form of `txnFebD`. -/
def txnFeb : Transaction :=
  { id := "tf", date := 1706745600, amount := mkRat 3 1, payee := "February",
    account_id := "a1", account_name := "Checking", org_name := "First Bank",
    description := none }

/-- The setup token of the spec's example:
`"sfin:" + base64("https://example.com/claim/abc")`. -/
def goodToken : String :=
  "sfin:aHR0cHM6Ly9leGFtcGxlLmNvbS9jbGFpbS9hYmM="

/-- A setup token containing `sfin:` twice: once as the prefix and once
inside the remainder. -/
def doubleToken : String :=
  "sfin:sfin:QQ=="

/-- A POST oracle that always answers with the fixed response `r`. -/
def constPost (r : HttpResponse) : String → Except String HttpResponse :=
  fun _ => .ok r

/-- A linked connection of user 7. -/
def conn1 : Connection :=
  { id := 1, user_id := 7, access_url := "enc1", name := "Bank Connection",
    last_synced_at := none }

/-- A second linked connection of user 7. -/
def conn2 : Connection :=
  { id := 2, user_id := 7, access_url := "enc2", name := "Bank Connection",
    last_synced_at := none }

/-- A previously cached transaction row of connection 1. -/
def oldTxn1 : CachedTransaction :=
  { connection_id := 1, external_id := "o1", date := 100, amount := mkRat 5 1,
    payee := "Old1", description := none, account_name := "Checking",
    org_name := "First Bank" }

/-- A previously cached transaction row of connection 2. -/
def oldTxn2 : CachedTransaction :=
  { connection_id := 2, external_id := "o2", date := 200, amount := mkRat 6 1,
    payee := "Old2", description := none, account_name := "Checking",
    org_name := "First Bank" }

/-- A previously cached account row of connection 1. -/
def oldAcct1 : CachedAccount :=
  { connection_id := 1, external_id := "xa1", name := "Checking",
    org_name := "First Bank", currency := "USD", balance := mkRat 1 1 }

/-- A previously cached account row of connection 2. -/
def oldAcct2 : CachedAccount :=
  { connection_id := 2, external_id := "xa2", name := "Checking",
    org_name := "First Bank", currency := "USD", balance := mkRat 2 1 }

/-- A store holding user 7's two connections and one previously cached row of
each kind per connection. -/
def exDB : DB :=
  { connections := [conn1, conn2],
    cachedTransactions := [oldTxn1, oldTxn2],
    cachedAccounts := [oldAcct1, oldAcct2] }

/-- A fresh account as fetched for connection 2. -/
def freshAccount : Account :=
  { id := "na", org_name := "First Bank", name := "Checking", currency := "USD",
    balance := mkRat 42 1 }

/-- Fetch outcomes where connection 1's two fetches both fail with a network
error captured as strings (so the provider returns empty record lists) while
connection 2 succeeds with fresh data; no database transaction fails. -/
def fetchesC2 : Nat → ConnFetch := fun cid =>
  if cid = 1 then
    { txnsRes := .ok ([], ["Network Error: boom"]),
      acctsRes := .ok ([], ["Network Error: boom"]),
      dbFail := none }
  else
    { txnsRes := .ok ([txnMar], []),
      acctsRes := .ok ([freshAccount], []),
      dbFail := none }

/-- Fetch outcomes where connection 1 fetches fresh data but its reconcile
transaction raises, while connection 2 succeeds trivially. -/
def fetchesC1 : Nat → ConnFetch := fun cid =>
  if cid = 1 then
    { txnsRes := .ok ([txnMar], []),
      acctsRes := .ok ([freshAccount], []),
      dbFail := some "disk full" }
  else
    { txnsRes := .ok ([], []),
      acctsRes := .ok ([], []),
      dbFail := none }

/-! ## Helper lemmas -/

/-- Removing commas is idempotent. -/
theorem stripCommas_idem (s : String) : stripCommas (stripCommas s) = stripCommas s := by
  simp [stripCommas, String.toList, List.filter_filter]

/-- A fallible list build fails as soon as one of its members fails. -/
theorem mapExcept_error_of_mem {α β ε : Type} {f : α → Except ε β} {l : List α}
    {x : α} {e : ε} (hx : x ∈ l) (hf : f x = .error e) :
    ∃ e', mapExcept f l = .error e' := by
  induction l with
  | nil => cases hx
  | cons hd tl ih =>
    cases hx with
    | head => exact ⟨e, by simp [mapExcept, hf]⟩
    | tail _ hmem =>
      obtain ⟨e', he'⟩ := ih hmem
      cases hfh : f hd with
      | error e2 => exact ⟨e2, by simp [mapExcept, hfh]⟩
      | ok y => exact ⟨e', by simp [mapExcept, hfh, he']⟩

/-! ## C3: decrypt after encrypt under a fixed key -/

/-- C3: for every nonempty string `x` and a fixed key,
`decrypt(encrypt(x)) == x`. -/
theorem decrypt_encrypt_roundtrip (f : FernetScheme) (x : String) (hx : x ≠ "") :
    Encryptor.decrypt f (Encryptor.encrypt f x) = x := by
  unfold Encryptor.encrypt Encryptor.decrypt
  rw [if_neg hx, if_neg (f.enc_ne_empty x), f.dec_enc]
  rfl

/-- Witness for C3 at the concrete scheme `toyFernet` and input `"secret"`. -/
theorem decrypt_encrypt_roundtrip_witness :
    ("secret" : String) ≠ "" ∧
      Encryptor.decrypt toyFernet (Encryptor.encrypt toyFernet "secret") = "secret" :=
  ⟨by decide, decrypt_encrypt_roundtrip toyFernet "secret" (by decide)⟩

/-! ## C4: decrypt of an unauthencated token returns it unchanged -/

/-- C4: `decrypt` is a total function, and on any token that fails Fernet
authentication or format checks under the current key (`f.dec token = none`,
e.g. a token produced under a different key) it returns the input token
unchanged. -/
theorem decrypt_wrong_key_returns_input (f : FernetScheme) (token : String)
    (h : f.dec token = none) : Encryptor.decrypt f token = token := by
  unfold Encryptor.decrypt
  by_cases ht : token = ""
  · rw [if_pos ht, ht]
  · rw [if_neg ht, h]
    rfl

/-- Witness for C4: the token `"stale"` does not authenticate under
`toyFernet` and is returned unchanged. -/
theorem decrypt_wrong_key_returns_input_witness :
    toyFernet.dec "stale" = none ∧ Encryptor.decrypt toyFernet "stale" = "stale" :=
  ⟨by decide, decrypt_wrong_key_returns_input toyFernet "stale" (by decide)⟩

/-! ## C5: malformed balance handling -/

/-- C5 counterexample: the account record `accBadBalance` carries the
malformed balance string `"abc"`; `Account.from_dict` raises
`InvalidOperation` rather than producing a zero balance, and the raised
exception fails the whole `get_accounts` fetch containing the record. -/
theorem malformed_balance_raises_cex :
    Account.from_dict accBadBalance = .error "InvalidOperation" ∧
    (∀ acc, Account.from_dict accBadBalance ≠ .ok acc) ∧
    get_accounts (some { accounts := [accBadBalance], errors := [] }, []) =
      .error "InvalidOperation" := by
  refine ⟨by decide, ?_, by decide⟩
  intro acc hacc
  have h1 : Account.from_dict accBadBalance = .error "InvalidOperation" := by decide
  rw [h1] at hacc
  exact Except.noConfusion hacc

/-- C5 amended: a *missing* balance key defaults to zero, while a balance
string that is malformed after comma stripping raises `InvalidOperation`
out of `Account.from_dict`, failing the whole fetch that contains the
record. -/
theorem balance_parsing_amended :
    (∀ data : AccountDict, data.balance = none →
        Account.from_dict data = .ok
          { id := pyStr data.id
            org_name := data.orgName.getD "Unknown Bank"
            name := data.name.getD "Unknown Account"
            currency := data.currency.getD "USD"
            balance := 0 }) ∧
    (∀ (data : AccountDict) (s : String), data.balance = some (.str s) →
        pyDecimal (stripCommas s) = none →
        Account.from_dict data = .error "InvalidOperation") ∧
    ∀ (fd : FinData) (errs : List String) (data : AccountDict) (e : String),
        data ∈ fd.accounts → Account.from_dict data = .error e →
        ∃ e', get_accounts (some fd, errs) = .error e' := by
  refine ⟨?_, ?_, ?_⟩
  · intro data h
    have h0 : parsePyMoney (.str "0") = some 0 := by decide
    simp [Account.from_dict, h, h0]
  · intro data s h hbad
    have hn : parsePyMoney (.str s) = none := hbad
    simp [Account.from_dict, h, hn]
  · intro fd errs data e hmem herr
    obtain ⟨e', he'⟩ := mapExcept_error_of_mem hmem herr
    exact ⟨e', by simp [get_accounts, he']⟩

/-- Witness for C5 amended: the account record `accNoBalance` has no balance
key and parses to a zero balance. -/
theorem balance_parsing_amended_witness :
    accNoBalance.balance = none ∧
      Account.from_dict accNoBalance = .ok
        { id := "a2", org_name := "Unknown Bank", name := "Savings",
          currency := "USD", balance := 0 } :=
  ⟨rfl, balance_parsing_amended.1 accNoBalance rfl⟩

/-! ## C6: missing or invalid `posted` timestamps -/

/-- C6 counterexample: the transaction record `txnBadPosted` lacks a valid
epoch timestamp (its `posted` is the string `"x"`), yet
`Transaction.from_dict` raises `ValueError` from `int(posted)` instead of
substituting the current time. -/
theorem invalid_posted_string_raises_cex :
    Transaction.from_dict txnBadPosted accNoBalance 1700000000 = .error "ValueError" ∧
    ∀ t, Transaction.from_dict txnBadPosted accNoBalance 1700000000 ≠ .ok t := by
  refine ⟨by decide, ?_⟩
  intro t ht
  have h1 : Transaction.from_dict txnBadPosted accNoBalance 1700000000 =
      .error "ValueError" := by decide
  rw [h1] at ht
  exact Except.noConfusion ht

/-- C6 amended: only a `posted` value that is absent (or not an
int/float/str) is resolved by substituting the current time; a `posted`
string that is not a valid integer numeral raises `ValueError` out of
`Transaction.from_dict` instead. -/
theorem posted_fallback_amended :
    (∀ (data : TxnDict) (account : AccountDict) (now : Int) (q : Rat),
        data.posted = none →
        parsePyMoney (data.amount.getD (.str "0")) = some q →
        Transaction.from_dict data account now = .ok
          { id := pyStr data.id
            date := now
            amount := q
            payee := payeeChain data.payee data.description
            account_id := pyStr account.id
            account_name := account.name.getD "Unknown Account"
            org_name := account.orgName.getD "Unknown Bank"
            description := data.description }) ∧
    ∀ (data : TxnDict) (account : AccountDict) (now : Int) (s : String),
        data.posted = some (.str s) → pyIntOfString s = none →
        Transaction.from_dict data account now = .error "ValueError" := by
  constructor
  · intro data account now q hp hq
    simp [Transaction.from_dict, hp, hq]
  · intro data account now s hp hs
    simp [Transaction.from_dict, hp, pyIntOfVal, hs]

/-- Witness for C6 amended: the record `txnNoPosted` has no `posted` key and
parses with the supplied current time as its date. -/
theorem posted_fallback_amended_witness :
    txnNoPosted.posted = none ∧
    parsePyMoney (txnNoPosted.amount.getD (.str "0")) = some (mkRat 29 4) ∧
    Transaction.from_dict txnNoPosted accNoBalance 1700000000 = .ok
      { id := "t10", date := 1700000000, amount := mkRat 29 4, payee := "Cafe",
        account_id := "a2", account_name := "Savings", org_name := "Unknown Bank",
        description := none } :=
  ⟨rfl, by decide,
    posted_fallback_amended.1 txnNoPosted accNoBalance 1700000000 (mkRat 29 4) rfl
      (by decide)⟩

/-! ## C8: grouping separators do not change the parsed value -/

/-- C8: for every decimal-like string that is valid once its grouping
separators are stripped, parsing it in `Account.from_dict` or
`Transaction.from_dict` yields exactly the same decimal value as parsing the
separator-free form. -/
theorem grouping_separators_value (s : String) (d : Rat)
    (h : pyDecimal (stripCommas s) = some d) :
    parsePyMoney (.str s) = some d ∧
    parsePyMoney (.str (stripCommas s)) = some d ∧
    (∀ data : AccountDict, data.balance = some (.str s) →
        Account.from_dict data =
          Account.from_dict { data with balance := some (.str (stripCommas s)) }) ∧
    ∀ (data : TxnDict) (account : AccountDict) (now : Int),
        data.amount = some (.str s) →
        Transaction.from_dict data account now =
          Transaction.from_dict { data with amount := some (.str (stripCommas s)) }
            account now := by
  have h1 : parsePyMoney (.str s) = some d := h
  have h2 : parsePyMoney (.str (stripCommas s)) = some d := by
    show pyDecimal (stripCommas (stripCommas s)) = some d
    rw [stripCommas_idem]
    exact h
  refine ⟨h1, h2, ?_, ?_⟩
  · intro data hb
    simp [Account.from_dict, hb, h1, h2]
  · intro data account now ha
    cases hp : data.posted with
    | none => simp [Transaction.from_dict, ha, hp, h1, h2]
    | some v =>
      cases hv : pyIntOfVal v with
      | none => simp [Transaction.from_dict, ha, hp, hv]
      | some n => simp [Transaction.from_dict, ha, hp, hv, h1, h2]

/-- Witness for C8 at the spec's own example: `"1,200.50"` parses to exactly
`1200.50`. -/
theorem grouping_separators_value_witness :
    pyDecimal (stripCommas "1,200.50") = some (mkRat 2401 2) ∧
    parsePyMoney (.str "1,200.50") = some (mkRat 2401 2) :=
  ⟨by decide, (grouping_separators_value "1,200.50" (mkRat 2401 2) (by decide)).1⟩

/-! ## C9: flattening and descending sort of fetched transactions -/

/-- C9: whenever the payload parses, `get_transactions` returns the flattened
list of all accounts' transactions sorted descending by date (a permutation
of the parse order that is pairwise non-increasing in date), together with
the merged error list; and on the concretely dated payload
January / March / February the result is ordered March, February, January. -/
theorem get_transactions_sorted_desc :
    (∀ (fd : FinData) (errs : List String) (now : Int) (l : List Transaction),
        parseAllTxns fd now = .ok l →
        ∃ ts, get_transactions (some fd, errs) now = .ok (ts, errs ++ fd.errors) ∧
          ts.Pairwise (fun a b => b.date ≤ a.date) ∧ ts.Perm l) ∧
    get_transactions (some exPayload, []) 0 = .ok ([txnMar, txnFeb, txnJan], []) := by
  constructor
  · intro fd errs now l hl
    haveI : IsTotal Transaction (fun a b => b.date ≤ a.date) :=
      ⟨fun a b => Int.le_total b.date a.date⟩
    haveI : IsTrans Transaction (fun a b => b.date ≤ a.date) :=
      ⟨fun _ _ _ hab hbc => le_trans hbc hab⟩
    refine ⟨pySortByDateDesc l, ?_, ?_, ?_⟩
    · simp [get_transactions, hl, pySortByDateDesc]
    · exact List.sorted_insertionSort (fun a b => b.date ≤ a.date) l
    · exact List.perm_insertionSort (fun a b => b.date ≤ a.date) l
  · decide

/-- Witness for C9 at the concrete payload: the hypothesis of the general
part holds with the parse order January, March, February. -/
theorem get_transactions_sorted_desc_witness :
    parseAllTxns exPayload 0 = .ok [txnJan, txnMar, txnFeb] ∧
    ∃ ts, get_transactions (some exPayload, []) 0 = .ok (ts, []) ∧
      ts.Pairwise (fun a b => b.date ≤ a.date) ∧ ts.Perm [txnJan, txnMar, txnFeb] :=
  ⟨by decide,
    get_transactions_sorted_desc.1 exPayload [] 0 [txnJan, txnMar, txnFeb] (by decide)⟩

/-! ## C7: claim_token -/

/-- Removing `sfin:` occurrences from a list that contains none is the
identity. -/
theorem removeSfin_of_not_contains (l : List Char) (h : containsSfin l = false) :
    removeSfin l = l := by
  induction l using removeSfin.induct with
  | case1 rest ih =>
    exfalso
    simp [containsSfin, startsWithSfin] at h
  | case2 c rest hne ih =>
    rw [containsSfin, Bool.or_eq_false_iff] at h
    rw [removeSfin]
    · rw [ih h.2]
    · exact hne
  | case3 => rfl

/-- On a list starting with `sfin:` whose remainder contains no further
`sfin:`, removing all occurrences equals dropping the five prefix
characters. -/
theorem removeSfin_eq_drop (l : List Char) (hs : startsWithSfin l = true)
    (h : containsSfin (l.drop 5) = false) : removeSfin l = l.drop 5 := by
  induction l using removeSfin.induct with
  | case1 rest ih =>
    rw [removeSfin]
    exact removeSfin_of_not_contains rest h
  | case2 c rest hne ih =>
    exfalso
    rw [startsWithSfin] at hs
    · exact Bool.false_ne_true hs
    · intro tail htail
      have hc : c = 's' := by injection htail
      have hr : rest = 'f' :: 'i' :: 'n' :: ':' :: tail := by
        injection htail with h1 h2
      exact hne tail hc hr
  | case3 => simp [startsWithSfin] at hs

/-- C7 counterexample: on the token `"sfin:sfin:QQ=="` the code does not
merely strip the leading `sfin:`;  `replace("sfin:", "")` removes both
occurrences, so `claim_token` decodes `"QQ=="`, POSTs to `"A"` and succeeds,
whereas the claimed strip-the-prefix behavior would base64-decode
`"sfin:QQ=="` to the bytes `b1 f8 a7 41`, fail UTF-8 decoding, and raise the
invalid-token error. -/
theorem claim_token_replace_all_cex :
    claim_token (constPost { status := 200, text := "access-url " }) doubleToken =
      .ok "access-url" ∧
    claimTokenSpec (constPost { status := 200, text := "access-url " }) doubleToken =
      .error .invalidToken ∧
    claim_token (constPost { status := 200, text := "access-url " }) doubleToken ≠
      claimTokenSpec (constPost { status := 200, text := "access-url " }) doubleToken := by
  refine ⟨by decide, by decide, by decide⟩

/-- C7 amended: `claim_token` removes every occurrence of `sfin:` when the
token starts with that prefix; on any token whose remainder contains no
further `sfin:` (every well-formed token, since base64 text cannot contain a
colon) this coincides with the claimed behavior — strip the prefix once,
base64-decode the remainder into a claim URL, raise the invalid-token error
exactly when decoding fails, POST once to the URL, raise the claim-failed
error exactly when the HTTP exchange errors or returns a non-success status,
and return the trimmed body.  In particular the spec's example token POSTs
to `https://example.com/claim/abc`. -/
theorem claim_token_amended :
    (∀ (post : String → Except String HttpResponse) (tok : String),
        containsSfin (tok.toList.drop 5) = false →
        claim_token post tok = claimTokenSpec post tok) ∧
    ∀ post : String → Except String HttpResponse,
        claim_token post goodToken = postClassify post "https://example.com/claim/abc" := by
  constructor
  · intro post tok h
    unfold claim_token claimTokenSpec tokenToUrl
    cases hs : startsWithSfin tok.toList with
    | false => simp [hs]
    | true =>
      have hd : removeSfin tok.toList = List.drop 5 tok.toList :=
        removeSfin_eq_drop tok.toList hs h
      simp only [hs, if_true]
      rw [hd]
  · intro post
    unfold claim_token
    have hurl : tokenToUrl goodToken = some "https://example.com/claim/abc" := by decide
    rw [hurl]

/-- Witness for C7 amended at the spec's example token and a constant POST
oracle. -/
theorem claim_token_amended_witness :
    containsSfin (goodToken.toList.drop 5) = false ∧
    claim_token (constPost { status := 200, text := "ok " }) goodToken =
      claimTokenSpec (constPost { status := 200, text := "ok " }) goodToken ∧
    claim_token (constPost { status := 200, text := "ok " }) goodToken = .ok "ok" :=
  ⟨by decide,
    claim_token_amended.1 (constPost { status := 200, text := "ok " }) goodToken (by decide),
    by decide⟩

/-! ## Sync engine lemmas -/

/-- Rows selected by one key survive a deletion filter for a different key. -/
theorem filter_key_filter_ne {α : Type} (key : α → Nat) (cid other : Nat)
    (hne : other ≠ cid) (l : List α) :
    (l.filter (fun a => key a ≠ other)).filter (fun a => key a = cid) =
      l.filter (fun a => key a = cid) := by
  rw [List.filter_filter]
  apply List.filter_congr
  intro a _
  by_cases hk : key a = cid
  · have hno : key a ≠ other := by rw [hk]; exact hne.symm
    simp [hk, hno, hne.symm]
  · simp [hk]

/-- Rows selected by a key are all gone after the deletion filter for that
same key. -/
theorem filter_key_filter_ne_self {α : Type} (key : α → Nat) (cid : Nat) (l : List α) :
    (l.filter (fun a => key a ≠ cid)).filter (fun a => key a = cid) = [] := by
  rw [List.filter_filter, List.filter_eq_nil_iff]
  intro a _
  by_cases hk : key a = cid <;> simp [hk]

/-- Appending rows keyed elsewhere does not change a key's selection. -/
theorem filter_key_append_notin {α : Type} (key : α → Nat) (cid : Nat) (l1 l2 : List α)
    (h : ∀ a ∈ l2, key a ≠ cid) :
    (l1 ++ l2).filter (fun a => key a = cid) = l1.filter (fun a => key a = cid) := by
  rw [List.filter_append]
  have h2 : l2.filter (fun a => key a = cid) = [] := by
    rw [List.filter_eq_nil_iff]
    intro a ha
    simpa using h a ha
  rw [h2, List.append_nil]

/-- A selection filter keeps a list all of whose rows it selects. -/
theorem filter_key_all {α : Type} (key : α → Nat) (cid : Nat) (l : List α)
    (h : ∀ a ∈ l, key a = cid) : l.filter (fun a => key a = cid) = l := by
  rw [List.filter_eq_self]
  intro a ha
  simpa using h a ha

/-- Mapping a function that fixes every selected element and preserves
selection commutes away from a filter. -/
theorem filter_map_of_invariant {α : Type} (g : α → α) (p : α → Bool)
    (hp : ∀ x, p (g x) = p x) (hg : ∀ x, p x = true → g x = x) (l : List α) :
    (l.map g).filter p = l.filter p := by
  induction l with
  | nil => rfl
  | cons hd tl ih =>
    rw [List.map_cons, List.filter_cons, List.filter_cons, hp hd]
    cases hph : p hd with
    | true => rw [hg hd hph, ih]
    | false => simp [ih]

/-- The store produced by one reconcile step does not depend on the error
list accumulated so far. -/
theorem processConnection_fst_errs (now : Int) (f : ConnFetch) (db : DB)
    (errs : List String) (c : Connection) :
    (processConnection now f db errs c).1 = (processConnection now f db [] c).1 := by
  rcases f with ⟨tr, ar, dbf⟩
  rcases tr with e | ⟨ts, te⟩ <;> rcases ar with e2 | ⟨as2, ae⟩ <;>
    rcases dbf with _ | e3 <;> rfl

/-- One reconcile step appends to the error list accumulated so far. -/
theorem processConnection_snd_errs (now : Int) (f : ConnFetch) (db : DB)
    (errs : List String) (c : Connection) :
    (processConnection now f db errs c).2 =
      errs ++ (processConnection now f db [] c).2 := by
  rcases f with ⟨tr, ar, dbf⟩
  rcases tr with e | ⟨ts, te⟩ <;> rcases ar with e2 | ⟨as2, ae⟩ <;>
    rcases dbf with _ | e3 <;> simp [processConnection]

/-- The reconcile loop appends to the error list accumulated so far, and the
final store does not depend on it. -/
theorem foldl_syncStep_errs (now : Int) (fetches : Nat → ConnFetch)
    (l : List Connection) (db : DB) (errs : List String) :
    (l.foldl (syncStep now fetches) (db, errs)).1 =
      (l.foldl (syncStep now fetches) (db, [])).1 ∧
    (l.foldl (syncStep now fetches) (db, errs)).2 =
      errs ++ (l.foldl (syncStep now fetches) (db, [])).2 := by
  induction l generalizing db errs with
  | nil => simp
  | cons c tl ih =>
    rw [List.foldl_cons, List.foldl_cons]
    have hstep : syncStep now fetches (db, errs) c =
        ((processConnection now (fetches c.id) db [] c).1,
          errs ++ (processConnection now (fetches c.id) db [] c).2) := by
      unfold syncStep
      exact Prod.ext (processConnection_fst_errs now _ db errs c)
        (processConnection_snd_errs now _ db errs c)
    have hstep0 : syncStep now fetches (db, []) c =
        ((processConnection now (fetches c.id) db [] c).1,
          (processConnection now (fetches c.id) db [] c).2) := by
      unfold syncStep
      exact Prod.ext rfl rfl
    rw [hstep, hstep0]
    obtain ⟨ih1, ih2⟩ :=
      ih (processConnection now (fetches c.id) db [] c).1
        (errs ++ (processConnection now (fetches c.id) db [] c).2)
    refine ⟨?_, ?_⟩
    · rw [ih1]
      obtain ⟨jh1, _⟩ :=
        ih (processConnection now (fetches c.id) db [] c).1
          (processConnection now (fetches c.id) db [] c).2
      rw [jh1]
    · rw [ih2]
      obtain ⟨_, jh2⟩ :=
        ih (processConnection now (fetches c.id) db [] c).1
          (processConnection now (fetches c.id) db [] c).2
      rw [jh2, List.append_assoc]

/-- A reconcile step for connection `c` does not change the rows of any other
connection `cid`: neither its cached transactions, nor its cached accounts,
nor its connection row. -/
theorem processConnection_preserve (now : Int) (f : ConnFetch) (db : DB)
    (errs : List String) (c : Connection) (cid : Nat) (hne : c.id ≠ cid) :
    (processConnection now f db errs c).1.cachedTransactions.filter
        (fun t => t.connection_id = cid) =
      db.cachedTransactions.filter (fun t => t.connection_id = cid) ∧
    (processConnection now f db errs c).1.cachedAccounts.filter
        (fun a => a.connection_id = cid) =
      db.cachedAccounts.filter (fun a => a.connection_id = cid) ∧
    (processConnection now f db errs c).1.connections.filter
        (fun c2 => c2.id = cid) =
      db.connections.filter (fun c2 => c2.id = cid) := by
  rcases f with ⟨tr, ar, dbf⟩
  rcases dbf with _ | e3
  · rcases tr with e1 | ⟨ts, te⟩ <;> rcases ar with e2 | ⟨as2, ae⟩ <;>
    · simp only [processConnection]
      refine ⟨?_, ?_, ?_⟩
      · rw [filter_key_append_notin (fun t : CachedTransaction => t.connection_id) cid _ _
            (by intro a ha; obtain ⟨t, _, rfl⟩ := List.mem_map.mp ha; exact hne),
          filter_key_filter_ne (fun t : CachedTransaction => t.connection_id) cid c.id hne]
      · rw [filter_key_append_notin (fun a : CachedAccount => a.connection_id) cid _ _
            (by intro a ha; obtain ⟨t, _, rfl⟩ := List.mem_map.mp ha; exact hne),
          filter_key_filter_ne (fun a : CachedAccount => a.connection_id) cid c.id hne]
      · apply filter_map_of_invariant
        · intro x
          by_cases hx : x.id = c.id <;> simp [hx]
        · intro x hx
          have hxx : ¬x.id = c.id := by
            intro hxc
            rw [decide_eq_true_eq] at hx
            exact hne (hxc.symm.trans hx)
          simp [hxx]
  · rcases tr with e1 | ⟨ts, te⟩ <;> rcases ar with e2 | ⟨as2, ae⟩ <;>
      exact ⟨rfl, rfl, rfl⟩

/-- A reconcile step whose database transaction raises leaves the store
untouched and appends a connection-tagged database error. -/
theorem processConnection_dbFail (now : Int) (f : ConnFetch) (db : DB)
    (errs : List String) (c : Connection) (e : String) (hf : f.dbFail = some e) :
    (processConnection now f db errs c).1 = db ∧
    ("DB Error Conn " ++ toString c.id ++ ": " ++ e) ∈
      (processConnection now f db errs c).2 := by
  rcases f with ⟨tr, ar, dbf⟩
  cases hf
  rcases tr with e1 | ⟨ts, te⟩ <;> rcases ar with e2 | ⟨as2, ae⟩ <;>
    simp [processConnection]

/-- The reconcile loop over connections with other ids does not change a
given connection's rows. -/
theorem foldl_syncStep_preserve (now : Int) (fetches : Nat → ConnFetch) (cid : Nat)
    (l : List Connection) (h : ∀ c ∈ l, c.id ≠ cid) (db : DB) (errs : List String) :
    (l.foldl (syncStep now fetches) (db, errs)).1.cachedTransactions.filter
        (fun t => t.connection_id = cid) =
      db.cachedTransactions.filter (fun t => t.connection_id = cid) ∧
    (l.foldl (syncStep now fetches) (db, errs)).1.cachedAccounts.filter
        (fun a => a.connection_id = cid) =
      db.cachedAccounts.filter (fun a => a.connection_id = cid) ∧
    (l.foldl (syncStep now fetches) (db, errs)).1.connections.filter
        (fun c2 => c2.id = cid) =
      db.connections.filter (fun c2 => c2.id = cid) := by
  induction l generalizing db errs with
  | nil => exact ⟨rfl, rfl, rfl⟩
  | cons c tl ih =>
    rw [List.foldl_cons]
    have hc := h c (List.mem_cons_self c tl)
    have htl : ∀ x ∈ tl, x.id ≠ cid := fun x hx => h x (List.mem_cons_of_mem c hx)
    obtain ⟨p1, p2, p3⟩ := processConnection_preserve now (fetches c.id) db errs c cid hc
    obtain ⟨q1, q2, q3⟩ :=
      ih htl (processConnection now (fetches c.id) db errs c).1
        (processConnection now (fetches c.id) db errs c).2
    exact ⟨q1.trans p1, q2.trans p2, q3.trans p3⟩

/-- In a list of connections with no duplicate ids split around `c`, every
connection on either side has an id different from `c.id`. -/
theorem nodup_split_ids {s t : List Connection} {c : Connection}
    (h : ((s ++ c :: t).map (fun c2 => c2.id)).Nodup) :
    (∀ x ∈ s, x.id ≠ c.id) ∧ ∀ x ∈ t, x.id ≠ c.id := by
  rw [List.map_append, List.map_cons, List.nodup_append] at h
  obtain ⟨h1, h2, h3⟩ := h
  constructor
  · intro x hx heq
    exact h3 (List.mem_map_of_mem _ hx) (heq ▸ List.mem_cons_self c.id _)
  · intro x hx heq
    rw [List.nodup_cons] at h2
    exact h2.1 (heq ▸ List.mem_map_of_mem (fun c2 => c2.id) hx)

/-! ## C1: per-connection all-or-nothing reconcile -/

/-- C1: for every connection of the user processed by the reconcile phase of
`sync_data`, if any step of that connection's delete+insert+`last_synced_at`
transaction raises, the whole reconcile for that connection rolls back: its
cached transaction rows, cached account rows and connection row (including
`last_synced_at`) are exactly their prior state after the whole sync loop,
and an error string naming the connection is in the accumulated error
list. -/
theorem reconcile_rollback_atomic
    (db : DB) (user_id : Nat) (now : Int) (fetches : Nat → ConnFetch)
    (c : Connection) (e : String)
    (hnodup : (db.connections.map (fun c2 => c2.id)).Nodup)
    (hc : c ∈ db.connections) (hu : c.user_id = user_id)
    (hfail : (fetches c.id).dbFail = some e) :
    (syncCore db user_id now fetches).1.cachedTransactions.filter
        (fun t => t.connection_id = c.id) =
      db.cachedTransactions.filter (fun t => t.connection_id = c.id) ∧
    (syncCore db user_id now fetches).1.cachedAccounts.filter
        (fun a => a.connection_id = c.id) =
      db.cachedAccounts.filter (fun a => a.connection_id = c.id) ∧
    (syncCore db user_id now fetches).1.connections.filter
        (fun c2 => c2.id = c.id) =
      db.connections.filter (fun c2 => c2.id = c.id) ∧
    ("DB Error Conn " ++ toString c.id ++ ": " ++ e) ∈
      (syncCore db user_id now fetches).2 := by
  have hcf : c ∈ db.connections.filter (fun c2 => c2.user_id = user_id) :=
    List.mem_filter.mpr ⟨hc, by simp [hu]⟩
  obtain ⟨s, t, hst⟩ := List.append_of_mem hcf
  have hnd : ((s ++ c :: t).map (fun c2 => c2.id)).Nodup := by
    rw [← hst]
    exact hnodup.sublist ((List.filter_sublist db.connections).map (fun c2 => c2.id))
  obtain ⟨hs, ht⟩ := nodup_split_ids hnd
  unfold syncCore
  rw [hst, List.foldl_append, List.foldl_cons]
  set A := s.foldl (syncStep now fetches) (db, ([] : List String)) with hA
  obtain ⟨a1, a2, a3⟩ := foldl_syncStep_preserve now fetches c.id s hs db []
  obtain ⟨b1, b2⟩ := processConnection_dbFail now (fetches c.id) A.1 A.2 c e hfail
  obtain ⟨c1', c2', c3'⟩ :=
    foldl_syncStep_preserve now fetches c.id t ht (syncStep now fetches A c).1
      (syncStep now fetches A c).2
  obtain ⟨_, e2'⟩ :=
    foldl_syncStep_errs now fetches t (syncStep now fetches A c).1
      (syncStep now fetches A c).2
  have hstep1 : (syncStep now fetches A c).1 = A.1 := b1
  refine ⟨?_, ?_, ?_, ?_⟩
  · rw [c1', hstep1]
    exact a1
  · rw [c2', hstep1]
    exact a2
  · rw [c3', hstep1]
    exact a3
  · rw [e2']
    exact List.mem_append_left _ b2

/-- Witness for C1: in the concrete store `exDB`, connection 1's reconcile
transaction raises under `fetchesC1`, its cached rows survive unchanged, and
the database error naming connection 1 is recorded. -/
theorem reconcile_rollback_atomic_witness :
    ((exDB.connections.map (fun c2 => c2.id)).Nodup ∧
      conn1 ∈ exDB.connections ∧ conn1.user_id = 7 ∧
      (fetchesC1 conn1.id).dbFail = some "disk full") ∧
    ((syncCore exDB 7 500 fetchesC1).1.cachedTransactions.filter
        (fun t => t.connection_id = conn1.id) =
      exDB.cachedTransactions.filter (fun t => t.connection_id = conn1.id) ∧
    (syncCore exDB 7 500 fetchesC1).1.cachedAccounts.filter
        (fun a => a.connection_id = conn1.id) =
      exDB.cachedAccounts.filter (fun a => a.connection_id = conn1.id) ∧
    (syncCore exDB 7 500 fetchesC1).1.connections.filter
        (fun c2 => c2.id = conn1.id) =
      exDB.connections.filter (fun c2 => c2.id = conn1.id) ∧
    ("DB Error Conn " ++ toString conn1.id ++ ": " ++ "disk full") ∈
      (syncCore exDB 7 500 fetchesC1).2) :=
  ⟨⟨by decide, by decide, rfl, by decide⟩,
    reconcile_rollback_atomic exDB 7 500 fetchesC1 conn1 "disk full"
      (by decide) (by decide) rfl (by decide)⟩

/-! ## C10: a string-level fetch failure empties the connection's cache -/

/-- A reconcile step whose fetches produced empty record lists (errors
captured as strings) and whose transaction commits leaves the connection
with no cached rows at all: the wipe runs and nothing is inserted. -/
theorem processConnection_empty_wipe (now : Int) (f : ConnFetch) (db : DB)
    (errs : List String) (c : Connection) (te ae : List String)
    (ht : f.txnsRes = .ok ([], te)) (ha : f.acctsRes = .ok ([], ae))
    (hd : f.dbFail = none) :
    (processConnection now f db errs c).1.cachedTransactions.filter
        (fun t => t.connection_id = c.id) = [] ∧
    (processConnection now f db errs c).1.cachedAccounts.filter
        (fun a => a.connection_id = c.id) = [] := by
  rcases f with ⟨tr, ar, dbf⟩
  cases ht
  cases ha
  cases hd
  simp only [processConnection]
  constructor
  · simp [filter_key_filter_ne_self (fun t : CachedTransaction => t.connection_id) c.id
      db.cachedTransactions]
  · simp [filter_key_filter_ne_self (fun a : CachedAccount => a.connection_id) c.id
      db.cachedAccounts]

/-- C10: during `sync_data`, a connection whose fetches fail with errors
captured as strings (so both record lists are empty and no exception
propagates) still goes through the wipe-and-replace reconcile; after the
sync loop its cached transaction and account rows are gone — the total
network failure empties that connection's cache rather than preserving the
prior rows. -/
theorem string_failure_empties_cache
    (db : DB) (user_id : Nat) (now : Int) (fetches : Nat → ConnFetch)
    (c : Connection) (te ae : List String)
    (hnodup : (db.connections.map (fun c2 => c2.id)).Nodup)
    (hc : c ∈ db.connections) (hu : c.user_id = user_id)
    (ht : (fetches c.id).txnsRes = .ok ([], te))
    (ha : (fetches c.id).acctsRes = .ok ([], ae))
    (hd : (fetches c.id).dbFail = none) :
    (syncCore db user_id now fetches).1.cachedTransactions.filter
        (fun t => t.connection_id = c.id) = [] ∧
    (syncCore db user_id now fetches).1.cachedAccounts.filter
        (fun a => a.connection_id = c.id) = [] := by
  have hcf : c ∈ db.connections.filter (fun c2 => c2.user_id = user_id) :=
    List.mem_filter.mpr ⟨hc, by simp [hu]⟩
  obtain ⟨s, t, hst⟩ := List.append_of_mem hcf
  have hnd : ((s ++ c :: t).map (fun c2 => c2.id)).Nodup := by
    rw [← hst]
    exact hnodup.sublist ((List.filter_sublist db.connections).map (fun c2 => c2.id))
  obtain ⟨hs, htt⟩ := nodup_split_ids hnd
  unfold syncCore
  rw [hst, List.foldl_append, List.foldl_cons]
  set A := s.foldl (syncStep now fetches) (db, ([] : List String)) with hA
  obtain ⟨b1, b2⟩ :=
    processConnection_empty_wipe now (fetches c.id) A.1 A.2 c te ae ht ha hd
  obtain ⟨c1', c2', _⟩ :=
    foldl_syncStep_preserve now fetches c.id t htt (syncStep now fetches A c).1
      (syncStep now fetches A c).2
  exact ⟨c1'.trans b1, c2'.trans b2⟩

/-- Witness for C10: in the concrete store `exDB`, connection 1's two fetches
fail as strings under `fetchesC2`, and after the sync its previously cached
row `oldTxn1` and account row `oldAcct1` are gone. -/
theorem string_failure_empties_cache_witness :
    ((exDB.connections.map (fun c2 => c2.id)).Nodup ∧
      conn1 ∈ exDB.connections ∧ conn1.user_id = 7 ∧
      (fetchesC2 conn1.id).txnsRes = .ok ([], ["Network Error: boom"]) ∧
      (fetchesC2 conn1.id).acctsRes = .ok ([], ["Network Error: boom"]) ∧
      (fetchesC2 conn1.id).dbFail = none) ∧
    ((syncCore exDB 7 500 fetchesC2).1.cachedTransactions.filter
        (fun t => t.connection_id = conn1.id) = [] ∧
    (syncCore exDB 7 500 fetchesC2).1.cachedAccounts.filter
        (fun a => a.connection_id = conn1.id) = []) :=
  ⟨⟨by decide, by decide, rfl, by decide, by decide, by decide⟩,
    string_failure_empties_cache exDB 7 500 fetchesC2 conn1
      ["Network Error: boom"] ["Network Error: boom"]
      (by decide) (by decide) rfl (by decide) (by decide) (by decide)⟩

/-! ## C2: sync over two connections, one failing with a network error -/

/-- A reconcile step whose fetches returned record lists and whose
transaction commits performs the wipe-and-replace: afterwards the
connection's cached rows are exactly the freshly fetched ones, and the two
fetches' error strings are appended verbatim to the error list. -/
theorem processConnection_replace (now : Int) (f : ConnFetch) (db : DB)
    (errs : List String) (c : Connection) (ts : List Transaction)
    (te : List String) (accs : List Account) (ae : List String)
    (ht : f.txnsRes = .ok (ts, te)) (ha : f.acctsRes = .ok (accs, ae))
    (hd : f.dbFail = none) :
    (processConnection now f db errs c).1.cachedTransactions.filter
        (fun t => t.connection_id = c.id) = ts.map (toCachedTransaction c.id) ∧
    (processConnection now f db errs c).1.cachedAccounts.filter
        (fun a => a.connection_id = c.id) = accs.map (toCachedAccount c.id) ∧
    (processConnection now f db errs c).2 = errs ++ te ++ ae := by
  rcases f with ⟨tr, ar, dbf⟩
  cases ht
  cases ha
  cases hd
  simp only [processConnection]
  refine ⟨?_, ?_, ?_⟩
  case refine_3 => trivial
  · rw [List.filter_append,
      filter_key_filter_ne_self (fun t : CachedTransaction => t.connection_id) c.id
        db.cachedTransactions,
      filter_key_all (fun t : CachedTransaction => t.connection_id) c.id _
        (by intro a ha; obtain ⟨t, _, rfl⟩ := List.mem_map.mp ha; rfl),
      List.nil_append]
  · rw [List.filter_append,
      filter_key_filter_ne_self (fun a : CachedAccount => a.connection_id) c.id
        db.cachedAccounts,
      filter_key_all (fun a : CachedAccount => a.connection_id) c.id _
        (by intro a ha; obtain ⟨t, _, rfl⟩ := List.mem_map.mp ha; rfl),
      List.nil_append]

/-- A cached row belonging to a connection of the user appears in the
dashboard read's transaction list. -/
theorem mem_dashboard (db : DB) (uid : Nat) (x : CachedTransaction)
    (hx : x ∈ db.cachedTransactions)
    (hconn : ∃ c ∈ db.connections, c.user_id = uid ∧ c.id = x.connection_id) :
    x ∈ (get_dashboard_data db uid).1 := by
  unfold get_dashboard_data sortCachedByDateDesc
  rw [(List.perm_insertionSort _ _).mem_iff]
  apply List.mem_filter.mpr
  refine ⟨hx, ?_⟩
  obtain ⟨c, hcmem, hcu, hcid⟩ := hconn
  have h1 : c ∈ db.connections.filter (fun c2 => c2.user_id = uid) :=
    List.mem_filter.mpr ⟨hcmem, by simp [hcu]⟩
  have h2 : x.connection_id ∈
      (db.connections.filter (fun c2 => c2.user_id = uid)).map (fun c2 => c2.id) := by
    rw [← hcid]
    exact List.mem_map_of_mem _ h1
  simpa using h2

/-- A committing reconcile step keeps every connection row's id and owner:
only `last_synced_at` changes. -/
theorem processConnection_conn_keys (now : Int) (f : ConnFetch) (db : DB)
    (errs : List String) (c : Connection) :
    (processConnection now f db errs c).1.connections.map
        (fun c2 => (c2.id, c2.user_id)) =
      db.connections.map (fun c2 => (c2.id, c2.user_id)) := by
  rcases f with ⟨tr, ar, dbf⟩
  rcases dbf with _ | e3
  · rcases tr with e1 | ⟨ts, te⟩ <;> rcases ar with e2 | ⟨as2, ae⟩ <;>
    · simp only [processConnection, List.map_map]
      apply List.map_congr_left
      intro x _
      by_cases hx : x.id = c.id <;> simp [hx]
  · rcases tr with e1 | ⟨ts, te⟩ <;> rcases ar with e2 | ⟨as2, ae⟩ <;> rfl

/-- C2 amended: in a sync over exactly two connections where the failing
connection's two fetches fail with a network error captured as strings and
the other connection's fetches succeed, the sync still replaces the
succeeding connection's cache with the fresh rows and returns them; but the
error strings collected internally are the provider's two per-fetch network
errors (one for the transactions fetch and one for the accounts fetch),
neither of which names the failing connection, and the error list actually
returned by `sync_data` is empty, because the function returns the dashboard
read's pair and drops the accumulated `all_errors`. -/
theorem two_connection_sync_amended
    (db : DB) (uid : Nat) (now : Int) (fetches : Nat → ConnFetch)
    (c1 c2 : Connection) (m1 m2 : String) (ts : List Transaction)
    (accs : List Account)
    (hconns : db.connections = [c1, c2])
    (hu1 : c1.user_id = uid) (hu2 : c2.user_id = uid) (hne : c1.id ≠ c2.id)
    (hf1t : (fetches c1.id).txnsRes = .ok ([], ["Network Error: " ++ m1]))
    (hf1a : (fetches c1.id).acctsRes = .ok ([], ["Network Error: " ++ m2]))
    (hf1d : (fetches c1.id).dbFail = none)
    (hf2t : (fetches c2.id).txnsRes = .ok (ts, []))
    (hf2a : (fetches c2.id).acctsRes = .ok (accs, []))
    (hf2d : (fetches c2.id).dbFail = none) :
    (syncCore db uid now fetches).2 =
      ["Network Error: " ++ m1, "Network Error: " ++ m2] ∧
    (syncCore db uid now fetches).1.cachedTransactions.filter
        (fun t => t.connection_id = c2.id) = ts.map (toCachedTransaction c2.id) ∧
    (syncCore db uid now fetches).1.cachedTransactions.filter
        (fun t => t.connection_id = c1.id) = [] ∧
    (∀ x ∈ ts.map (toCachedTransaction c2.id), x ∈ (sync_data db uid now fetches).2.1) ∧
    (sync_data db uid now fetches).2.2 = [] := by
  have hfilter : db.connections.filter (fun c3 => c3.user_id = uid) = [c1, c2] := by
    rw [hconns]
    simp [List.filter_cons, hu1, hu2]
  have hsync : syncCore db uid now fetches =
      processConnection now (fetches c2.id)
        (processConnection now (fetches c1.id) db [] c1).1
        (processConnection now (fetches c1.id) db [] c1).2 c2 := by
    unfold syncCore
    rw [hfilter, List.foldl_cons, List.foldl_cons, List.foldl_nil]
    rfl
  obtain ⟨r1t, r1a, r1e⟩ :=
    processConnection_replace now (fetches c1.id) db [] c1 []
      ["Network Error: " ++ m1] [] ["Network Error: " ++ m2] hf1t hf1a hf1d
  obtain ⟨r2t, r2a, r2e⟩ :=
    processConnection_replace now (fetches c2.id)
      (processConnection now (fetches c1.id) db [] c1).1
      (processConnection now (fetches c1.id) db [] c1).2 c2 ts [] accs []
      hf2t hf2a hf2d
  obtain ⟨p1, p2, p3⟩ :=
    processConnection_preserve now (fetches c2.id)
      (processConnection now (fetches c1.id) db [] c1).1
      (processConnection now (fetches c1.id) db [] c1).2 c2 c1.id hne.symm
  refine ⟨?_, ?_, ?_, ?_, ?_⟩
  · rw [hsync, r2e, r1e]
    simp
  · rw [hsync]
    exact r2t
  · rw [hsync, p1, r1t]
    rfl
  · intro x hxm
    have hxcid : x.connection_id = c2.id := by
      obtain ⟨t, _, rfl⟩ := List.mem_map.mp hxm
      rfl
    have hx2 : x ∈ (syncCore db uid now fetches).1.cachedTransactions := by
      have hh : x ∈ (syncCore db uid now fetches).1.cachedTransactions.filter
          (fun t => t.connection_id = c2.id) := by
        rw [hsync, r2t]
        exact hxm
      exact List.mem_of_mem_filter hh
    have hkeys : (syncCore db uid now fetches).1.connections.map
        (fun c3 => (c3.id, c3.user_id)) = [(c1.id, uid), (c2.id, uid)] := by
      rw [hsync, processConnection_conn_keys, processConnection_conn_keys, hconns]
      simp [hu1, hu2]
    have hconn : ∃ c ∈ (syncCore db uid now fetches).1.connections,
        c.user_id = uid ∧ c.id = x.connection_id := by
      have hmem : (c2.id, uid) ∈ (syncCore db uid now fetches).1.connections.map
          (fun c3 => (c3.id, c3.user_id)) := by
        rw [hkeys]
        exact List.mem_cons_of_mem _ (List.mem_cons_self _ _)
      obtain ⟨c3, hc3, hc3e⟩ := List.mem_map.mp hmem
      refine ⟨c3, hc3, ?_, ?_⟩
      · exact congrArg Prod.snd hc3e
      · rw [hxcid]
        exact congrArg Prod.fst hc3e
    exact mem_dashboard _ uid x hx2 hconn
  · rfl

/-- C2 counterexample: in the concrete two-connection store `exDB`, with
connection 1's fetches failing as network-error strings and connection 2
succeeding, the sync does return connection 2's fresh row, but the error
list `sync_data` returns is empty — not a single entry naming the failing
connection — while the internally collected list holds two entries, neither
of which names connection 1. -/
theorem two_connection_sync_errors_cex :
    (sync_data exDB 7 500 fetchesC2).2.1 = [toCachedTransaction 2 txnMar] ∧
    (sync_data exDB 7 500 fetchesC2).2.2 = [] ∧
    (sync_data exDB 7 500 fetchesC2).2.2.length ≠ 1 ∧
    (syncCore exDB 7 500 fetchesC2).2 =
      ["Network Error: boom", "Network Error: boom"] := by
  refine ⟨by decide, by decide, by decide, by decide⟩

/-- Witness for C2 amended at the concrete store `exDB` and fetch outcomes
`fetchesC2`. -/
theorem two_connection_sync_amended_witness :
    (exDB.connections = [conn1, conn2] ∧ conn1.user_id = 7 ∧ conn2.user_id = 7 ∧
      conn1.id ≠ conn2.id) ∧
    ((syncCore exDB 7 500 fetchesC2).2 =
      ["Network Error: " ++ "boom", "Network Error: " ++ "boom"] ∧
    (syncCore exDB 7 500 fetchesC2).1.cachedTransactions.filter
        (fun t => t.connection_id = conn2.id) =
      [txnMar].map (toCachedTransaction conn2.id) ∧
    (syncCore exDB 7 500 fetchesC2).1.cachedTransactions.filter
        (fun t => t.connection_id = conn1.id) = [] ∧
    (∀ x ∈ [txnMar].map (toCachedTransaction conn2.id),
        x ∈ (sync_data exDB 7 500 fetchesC2).2.1) ∧
    (sync_data exDB 7 500 fetchesC2).2.2 = []) :=
  ⟨⟨rfl, rfl, rfl, by decide⟩,
    two_connection_sync_amended exDB 7 500 fetchesC2 conn1 conn2 "boom" "boom"
      [txnMar] [freshAccount] rfl rfl rfl (by decide)
      (by decide) (by decide) (by decide) (by decide) (by decide) (by decide)⟩

/-! ## Model sanity checks against CPython ground truth -/

example : pyDecimal "1200.50" = some (mkRat 2401 2) := by decide

example : pyDecimal (stripCommas "1,200.50") = some (mkRat 2401 2) := by decide

example : pyDecimal "abc" = none := by decide

example : pyIntOfString "x" = none := by decide

example : pyDecimal "-3.25" = some (mkRat (-13) 4) := by decide

example : pyDecimal "1e3" = some (mkRat 1000 1) := by decide

example : pyDecimal ".5" = some (mkRat 1 2) := by decide

example : pyDecimal "1." = some (mkRat 1 1) := by decide

example : pyDecimal "" = none := by decide

example :
    get_accounts (none, ["Network Error: boom"]) = .ok ([], ["Network Error: boom"]) := by
  decide

example : pyB64decode "QQ==" = some [65] := by decide

example : pyB64decode "QQ" = none := by decide

example : pyB64decode "QQ=" = none := by decide

example : pyB64decode "sfin:QQ==" = some [177, 248, 167, 65] := by decide

example : utf8Decode [177, 248, 167, 65] = none := by decide

example : utf8Decode [65] = some "A" := by decide

example :
    tokenToUrl "sfin:aHR0cHM6Ly9leGFtcGxlLmNvbS9jbGFpbS9hYmM=" =
      some "https://example.com/claim/abc" := by decide

example : tokenToUrl "sfin:sfin:QQ==" = some "A" := by decide

example :
    (fun t =>
        if startsWithSfin t then (pyB64decode (String.mk (t.drop 5))).bind utf8Decode
        else none) "sfin:sfin:QQ==".toList = none := by decide
